import Mathlib

/-!
Shallow embedding of the geodesy / projection core of the GFX_Lab3 map
application (src/sources/Path.cpp and MyApp::calculateDistance in
src/sources/MyApp.cpp).  The C++ code works on `float`; the embedding models
the arithmetic over the real numbers, with the glm vector operations
(`dot`, `mix`, `normalize`) given their documented componentwise meaning.
In a `vec2` holding geographic data, `x` is the latitude and `y` the
longitude, both in degrees, exactly as in the source.
-/

noncomputable section

open Real

/-- 2-component vector, as glm `vec2`. -/
structure vec2 where
  x : ℝ
  y : ℝ
deriving DecidableEq

instance : Inhabited vec2 := ⟨⟨0, 0⟩⟩

/-- 3-component vector, as glm `vec3`. -/
structure vec3 where
  x : ℝ
  y : ℝ
  z : ℝ
deriving DecidableEq

/-- glm `dot` on `vec3`. -/
def dot3 (a b : vec3) : ℝ := a.x * b.x + a.y * b.y + a.z * b.z

/-- Scalar multiple of a `vec3` (glm `s * v`). -/
def smul3 (s : ℝ) (v : vec3) : vec3 := ⟨s * v.x, s * v.y, s * v.z⟩

/-- Componentwise sum of two `vec3` (glm `a + b`). -/
def add3 (a b : vec3) : vec3 := ⟨a.x + b.x, a.y + b.y, a.z + b.z⟩

/-- glm `mix(a, b, t) = a * (1 - t) + b * t`. -/
def mix3 (a b : vec3) (t : ℝ) : vec3 := add3 (smul3 (1 - t) a) (smul3 t b)

/-- Euclidean norm of a `vec3` (glm `length`). -/
def norm3 (v : vec3) : ℝ := Real.sqrt (dot3 v v)

/-- glm `normalize(v) = v / length(v)`. -/
def normalize3 (v : vec3) : vec3 := smul3 (1 / norm3 v) v

/-- Two-argument arctangent with the C-library `atan2f` convention:
result in `(-π, π]`, `atan2 0 0 = 0`. -/
def atan2 (y x : ℝ) : ℝ :=
  if 0 < x then Real.arctan (y / x)
  else if x < 0 then
    (if 0 ≤ y then Real.arctan (y / x) + π else Real.arctan (y / x) - π)
  else
    (if 0 < y then π / 2 else if y < 0 then -(π / 2) else 0)

/-- `geoToNormalizedMap` from src/sources/Path.cpp: projects latitude (deg)
via the Mercator formula normalized to the fixed ±85° band, longitude (deg)
linearly, into normalized map coordinates. -/
def geoToNormalizedMap (geo : vec2) : vec2 :=
  let latitudeMinRad : ℝ := -85 * π / 180
  let latitudeMaxRad : ℝ := 85 * π / 180
  let latitudeRad : ℝ := geo.x * π / 180
  let mercatorProjectionY := Real.log (Real.tan latitudeRad + 1 / Real.cos latitudeRad)
  let mercatorProjectionMinY := Real.log (Real.tan latitudeMinRad + 1 / Real.cos latitudeMinRad)
  let mercatorProjectionMaxY := Real.log (Real.tan latitudeMaxRad + 1 / Real.cos latitudeMaxRad)
  let normalizedMapY := -1 + 2 * (mercatorProjectionY - mercatorProjectionMinY) /
      (mercatorProjectionMaxY - mercatorProjectionMinY)
  let normalizedMapX := geo.y / 180
  ⟨normalizedMapX, normalizedMapY⟩

/-- `mapCoordinatesToGeographic` from src/sources/Path.cpp: inverse of the
normalized Mercator projection, returning (latitude, longitude) in degrees. -/
def mapCoordinatesToGeographic (normalizedMap : vec2) : vec2 :=
  let longitude := normalizedMap.x * 180
  let latitudeMinRadians : ℝ := -85 * π / 180
  let latitudeMaxRadians : ℝ := 85 * π / 180
  let yMin := Real.log (Real.tan latitudeMinRadians + 1 / Real.cos latitudeMinRadians)
  let yMax := Real.log (Real.tan latitudeMaxRadians + 1 / Real.cos latitudeMaxRadians)
  let y := yMin + (normalizedMap.y + 1) / 2 * (yMax - yMin)
  let latitudeRadians := Real.arctan (Real.sinh y)
  let latitude := latitudeRadians * 180 / π
  ⟨latitude, longitude⟩

/-- `geoToCartesian` from src/sources/Path.cpp: (latitude, longitude) in
degrees to a unit vector on the sphere. -/
def geoToCartesian (geo : vec2) : vec3 :=
  let latitudeRad := geo.x * π / 180
  let longitudeRad := geo.y * π / 180
  ⟨Real.cos latitudeRad * Real.cos longitudeRad,
   Real.cos latitudeRad * Real.sin longitudeRad,
   Real.sin latitudeRad⟩

/-- `sphericalLinearInterpolation` from src/sources/Path.cpp: slerp between
two vectors, falling back to normalized linear interpolation when the dot
product exceeds 0.9995. -/
def sphericalLinearInterpolation (startVector endVector : vec3)
    (interpolationFactor : ℝ) : vec3 :=
  let dotProduct := dot3 startVector endVector
  if dotProduct > 0.9995 then
    normalize3 (mix3 startVector endVector interpolationFactor)
  else
    let angle := Real.arccos dotProduct
    let sinAngle := Real.sin angle
    add3 (smul3 (Real.sin ((1 - interpolationFactor) * angle) / sinAngle) startVector)
         (smul3 (Real.sin (interpolationFactor * angle) / sinAngle) endVector)

/-- `cartesianToGeographic` from src/sources/Path.cpp: unit vector to
(latitude, longitude) in degrees. -/
def cartesianToGeographic (cartesianCoordinates : vec3) : vec2 :=
  let latitude := Real.arcsin cartesianCoordinates.z * 180 / π
  let longitude := atan2 cartesianCoordinates.y cartesianCoordinates.x * 180 / π
  ⟨latitude, longitude⟩

/-- `MyApp::calculateDistance` from src/sources/MyApp.cpp: great-circle
distance in kilometers, the dot product clamped to `[-0.9995, 0.9995]`
before `acos`, with Earth radius `40000 / (2π)` km. -/
def calculateDistance (start stop : vec2) : ℝ :=
  let startCart := geoToCartesian start
  let endCart := geoToCartesian stop
  let dotProduct := dot3 startCart endCart
  let dotClampedHigh := if dotProduct > 0.9995 then 0.9995 else dotProduct
  let dotClampedLow := if dotClampedHigh < -0.9995 then -0.9995 else dotClampedHigh
  let angle := Real.arccos dotClampedLow
  let earthRadius := 40000 / (2 * π)
  angle * earthRadius

/-- Number of segments used by the `Path::Path` constructor
(`numPoints` in src/sources/Path.cpp). -/
def numPoints : ℕ := 100

/-- The point pushed at loop index `i` of the `Path::Path` constructor. -/
def pathPoint (startCart endCart : vec3) (i : ℕ) : vec2 :=
  let t : ℝ := (i : ℝ) / numPoints
  geoToNormalizedMap (cartesianToGeographic
    (sphericalLinearInterpolation startCart endCart t))

/-- The ordered vertex list built by `Path::Path(start, end)` in
src/sources/Path.cpp: one projected slerp sample for each
`i = 0, …, numPoints`. -/
def pathPoints (start stop : vec2) : List vec2 :=
  (List.range (numPoints + 1)).map
    (pathPoint (geoToCartesian start) (geoToCartesian stop))

/-- The Mercator ordinate used by both projection directions:
`log (tan θ + 1 / cos θ)` with `θ` the latitude in radians. -/
def merc (θ : ℝ) : ℝ := Real.log (Real.tan θ + 1 / Real.cos θ)

theorem geoToNormalizedMap_eq (geo : vec2) :
    geoToNormalizedMap geo =
      ⟨geo.y / 180,
       -1 + 2 * (merc (geo.x * π / 180) - merc (-85 * π / 180)) /
         (merc (85 * π / 180) - merc (-85 * π / 180))⟩ := rfl

theorem mapCoordinatesToGeographic_eq (m : vec2) :
    mapCoordinatesToGeographic m =
      ⟨Real.arctan (Real.sinh (merc (-85 * π / 180) +
          (m.y + 1) / 2 * (merc (85 * π / 180) - merc (-85 * π / 180)))) * 180 / π,
       m.x * 180⟩ := rfl

theorem tan_add_inv_cos {θ : ℝ} (hc : Real.cos θ ≠ 0) :
    Real.tan θ + 1 / Real.cos θ = (1 + Real.sin θ) / Real.cos θ := by
  rw [Real.tan_eq_sin_div_cos]
  field_simp
  ring

theorem one_add_sin_pos {θ : ℝ} (hc : 0 < Real.cos θ) : 0 < 1 + Real.sin θ := by
  nlinarith [Real.sin_sq_add_cos_sq θ, Real.sin_le_one θ, mul_pos hc hc]

theorem merc_arg_pos {θ : ℝ} (hc : 0 < Real.cos θ) :
    0 < Real.tan θ + 1 / Real.cos θ := by
  rw [tan_add_inv_cos hc.ne']
  exact div_pos (one_add_sin_pos hc) hc

theorem sinh_merc {θ : ℝ} (hc : 0 < Real.cos θ) :
    Real.sinh (merc θ) = Real.tan θ := by
  have hsum : 0 < 1 + Real.sin θ := one_add_sin_pos hc
  have harg : 0 < (1 + Real.sin θ) / Real.cos θ := div_pos hsum hc
  have hc' : Real.cos θ ≠ 0 := hc.ne'
  have hsum' : (1 : ℝ) + Real.sin θ ≠ 0 := hsum.ne'
  rw [merc, tan_add_inv_cos hc', Real.sinh_log harg, Real.tan_eq_sin_div_cos, inv_div]
  field_simp
  nlinarith [Real.sin_sq_add_cos_sq θ]

theorem merc_neg {θ : ℝ} (hc : 0 < Real.cos θ) : merc (-θ) = -merc θ := by
  have hsum : 0 < 1 + Real.sin θ := one_add_sin_pos hc
  have hc' : Real.cos θ ≠ 0 := hc.ne'
  have hsum' : (1 : ℝ) + Real.sin θ ≠ 0 := hsum.ne'
  have key : Real.tan (-θ) + 1 / Real.cos (-θ) =
      (Real.tan θ + 1 / Real.cos θ)⁻¹ := by
    rw [Real.tan_neg, Real.cos_neg, tan_add_inv_cos hc', inv_div, Real.tan_eq_sin_div_cos]
    field_simp
    nlinarith [Real.sin_sq_add_cos_sq θ]
  rw [merc, merc, key, Real.log_inv]

theorem lat85_lt_pi_div_two : (85 : ℝ) * π / 180 < π / 2 := by
  nlinarith [pi_pos]

theorem cos_lat85_pos : 0 < Real.cos (85 * π / 180) := by
  apply Real.cos_pos_of_mem_Ioo
  constructor
  · nlinarith [pi_pos]
  · exact lat85_lt_pi_div_two

theorem merc_85_pos : 0 < merc (85 * π / 180) := by
  have hc := cos_lat85_pos
  rw [merc, tan_add_inv_cos hc.ne']
  apply Real.log_pos
  rw [lt_div_iff₀ hc]
  have hsin : 0 < Real.sin (85 * π / 180) := by
    apply Real.sin_pos_of_pos_of_lt_pi
    · nlinarith [pi_pos]
    · nlinarith [lat85_lt_pi_div_two, pi_pos]
  nlinarith [Real.cos_le_one (85 * π / 180)]

theorem merc_min_eq : merc (-85 * π / 180) = -merc (85 * π / 180) := by
  have h : (-85 : ℝ) * π / 180 = -(85 * π / 180) := by ring
  rw [h, merc_neg cos_lat85_pos]

theorem cos_latRad_pos {lat : ℝ} (h : |lat| < 90) : 0 < Real.cos (lat * π / 180) := by
  rw [abs_lt] at h
  apply Real.cos_pos_of_mem_Ioo
  constructor
  · nlinarith [pi_pos]
  · nlinarith [pi_pos]

theorem inv_affine (a b : ℝ) (hb : b ≠ 0) :
    -b + (-1 + 2 * (a - -b) / (b - -b) + 1) / 2 * (b - -b) = a := by
  field_simp
  rw [show (2 : ℝ) * (a + b) * (b + b) = (a + b) * ((b + b) * 2) by ring,
      mul_div_assoc, div_self (by intro h; apply hb; nlinarith [h] : (b + b) * 2 ≠ 0),
      mul_one]
  ring

/-- Exact inverse law of the projection pair on the ±85° latitude band. -/
theorem roundtrip_exact (g : vec2) (hlat : |g.x| ≤ 85) :
    mapCoordinatesToGeographic (geoToNormalizedMap g) = g := by
  have hlat90 : |g.x| < 90 := lt_of_le_of_lt hlat (by norm_num)
  have hc : 0 < Real.cos (g.x * π / 180) := cos_latRad_pos hlat90
  have hM : 0 < merc (85 * π / 180) := merc_85_pos
  rcases g with ⟨lat, lon⟩
  rw [abs_le] at hlat
  rw [geoToNormalizedMap_eq, mapCoordinatesToGeographic_eq]
  dsimp only
  rw [merc_min_eq,
      inv_affine (merc (lat * π / 180)) (merc (85 * π / 180)) hM.ne',
      sinh_merc hc, Real.arctan_tan (by nlinarith [pi_pos]) (by nlinarith [pi_pos])]
  rw [vec2.mk.injEq]
  constructor
  · field_simp
  · field_simp

/-- C1: composing `geoToNormalizedMap` with `mapCoordinatesToGeographic`
recovers any geographic point whose latitude magnitude is at most 85°,
within 1e-4 in both the latitude and the longitude component. -/
theorem roundtrip_within_tolerance (g : vec2) (hlat : |g.x| ≤ 85)
    (hlon₁ : -180 ≤ g.y) (hlon₂ : g.y ≤ 180) :
    |(mapCoordinatesToGeographic (geoToNormalizedMap g)).x - g.x| ≤ 1 / 10000 ∧
    |(mapCoordinatesToGeographic (geoToNormalizedMap g)).y - g.y| ≤ 1 / 10000 := by
  rw [roundtrip_exact g hlat]
  norm_num

/-- C1 witness. -/
theorem roundtrip_within_tolerance_witness :
    |(mapCoordinatesToGeographic (geoToNormalizedMap ⟨45, 90⟩)).x - (45 : ℝ)| ≤ 1 / 10000 ∧
    |(mapCoordinatesToGeographic (geoToNormalizedMap ⟨45, 90⟩)).y - (90 : ℝ)| ≤ 1 / 10000 :=
  roundtrip_within_tolerance ⟨45, 90⟩ (by norm_num) (by norm_num) (by norm_num)

theorem merc_strictMono {a b : ℝ} (h0 : 0 ≤ a) (hab : a < b) (hb : b < π / 2) :
    merc a < merc b := by
  have hca : 0 < Real.cos a := Real.cos_pos_of_mem_Ioo ⟨by linarith [pi_pos], by linarith⟩
  have hcb : 0 < Real.cos b := Real.cos_pos_of_mem_Ioo ⟨by linarith [pi_pos], hb⟩
  rw [merc, merc, tan_add_inv_cos hca.ne', tan_add_inv_cos hcb.ne']
  apply Real.log_lt_log (div_pos (one_add_sin_pos hca) hca)
  rw [div_lt_div_iff₀ hca hcb]
  have hcos : Real.cos b < Real.cos a :=
    Real.cos_lt_cos_of_nonneg_of_le_pi h0 (by linarith [pi_pos]) hab
  have hsin : 0 < Real.sin (b - a) :=
    Real.sin_pos_of_pos_of_lt_pi (by linarith) (by linarith [pi_pos])
  rw [Real.sin_sub] at hsin
  nlinarith

theorem geoToNormalizedMap_y_eq (g : vec2) :
    (geoToNormalizedMap g).y = merc (g.x * π / 180) / merc (85 * π / 180) := by
  have hM : 0 < merc (85 * π / 180) := merc_85_pos
  rw [geoToNormalizedMap_eq]
  dsimp only
  rw [merc_min_eq]
  field_simp
  ring

/-- C10: a latitude of magnitude strictly between 85° and 90° projects to a
normalized `y` of magnitude strictly greater than 1 (no clamping); the
projection is a total function here. -/
theorem geoToNormalizedMap_out_of_band (g : vec2) (h85 : 85 < |g.x|) (h90 : |g.x| < 90) :
    1 < |(geoToNormalizedMap g).y| := by
  have hM : 0 < merc (85 * π / 180) := merc_85_pos
  rw [geoToNormalizedMap_y_eq]
  rcases abs_cases g.x with ⟨heq, hsign⟩ | ⟨heq, hsign⟩
  · rw [heq] at h85 h90
    have hmono : merc (85 * π / 180) < merc (g.x * π / 180) := by
      apply merc_strictMono (by positivity) (by nlinarith [pi_pos]) (by nlinarith [pi_pos])
    have hgt : 1 < merc (g.x * π / 180) / merc (85 * π / 180) := (one_lt_div hM).mpr hmono
    rw [abs_of_pos (by linarith)]
    exact hgt
  · rw [heq] at h85 h90
    have hcneg : 0 < Real.cos (-g.x * π / 180) := by
      apply cos_latRad_pos
      rw [abs_of_pos (by linarith : (0 : ℝ) < -g.x)]
      exact h90
    have hodd : merc (g.x * π / 180) = -merc (-g.x * π / 180) := by
      rw [show g.x * π / 180 = -(-g.x * π / 180) by ring, merc_neg hcneg]
    have hmono : merc (85 * π / 180) < merc (-g.x * π / 180) := by
      apply merc_strictMono (by positivity) (by nlinarith [pi_pos]) (by nlinarith [pi_pos])
    have hgt : 1 < merc (-g.x * π / 180) / merc (85 * π / 180) := (one_lt_div hM).mpr hmono
    rw [hodd, neg_div, abs_neg, abs_of_pos (by linarith)]
    exact hgt

/-- C10 witness. -/
theorem geoToNormalizedMap_out_of_band_witness :
    85 < |(87 : ℝ)| ∧ |(87 : ℝ)| < 90 ∧ 1 < |(geoToNormalizedMap ⟨87, 0⟩).y| :=
  ⟨by norm_num, by norm_num,
   geoToNormalizedMap_out_of_band ⟨87, 0⟩ (by norm_num) (by norm_num)⟩

theorem dot3_geoToCartesian_self (a : vec2) :
    dot3 (geoToCartesian a) (geoToCartesian a) = 1 := by
  simp only [dot3, geoToCartesian]
  linear_combination (Real.cos (a.x * π / 180)) ^ 2 * Real.sin_sq_add_cos_sq (a.y * π / 180) +
    Real.sin_sq_add_cos_sq (a.x * π / 180)

theorem calculateDistance_self_eq (a : vec2) :
    calculateDistance a a = Real.arccos 0.9995 * (40000 / (2 * π)) := by
  simp only [calculateDistance, dot3_geoToCartesian_self]
  norm_num

theorem cos_002_gt : (0.9995 : ℝ) < Real.cos 0.02 := by
  have hb := Real.cos_bound (x := (0.02 : ℝ)) (abs_le.mpr ⟨by norm_num, by norm_num⟩)
  rw [show |(0.02 : ℝ)| = 0.02 by norm_num] at hb
  have h := abs_le.mp hb
  have h1 := h.1
  norm_num at h1 ⊢
  linarith

theorem cos_004_lt : Real.cos 0.04 < (0.9995 : ℝ) := by
  have hb := Real.cos_bound (x := (0.04 : ℝ)) (abs_le.mpr ⟨by norm_num, by norm_num⟩)
  rw [show |(0.04 : ℝ)| = 0.04 by norm_num] at hb
  have h := abs_le.mp hb
  have h2 := h.2
  norm_num at h2 ⊢
  linarith

theorem arccos_09995_gt : (0.02 : ℝ) < Real.arccos 0.9995 := by
  have h1 : Real.arccos (Real.cos 0.02) = 0.02 :=
    Real.arccos_cos (by norm_num) (by nlinarith [Real.pi_gt_three])
  have h2 := Real.strictAntiOn_arccos
    (Set.mem_Icc.mpr ⟨by norm_num, by norm_num⟩)
    (Set.mem_Icc.mpr ⟨Real.neg_one_le_cos 0.02, Real.cos_le_one 0.02⟩)
    cos_002_gt
  rw [h1] at h2
  exact h2

theorem arccos_09995_lt : Real.arccos 0.9995 < (0.04 : ℝ) := by
  have h1 : Real.arccos (Real.cos 0.04) = 0.04 :=
    Real.arccos_cos (by norm_num) (by nlinarith [Real.pi_gt_three])
  have h2 := Real.strictAntiOn_arccos
    (Set.mem_Icc.mpr ⟨Real.neg_one_le_cos 0.04, Real.cos_le_one 0.04⟩)
    (Set.mem_Icc.mpr ⟨by norm_num, by norm_num⟩)
    cos_004_lt
  rw [h1] at h2
  exact h2

theorem calculateDistance_self_gt (a : vec2) : 100 < calculateDistance a a := by
  rw [calculateDistance_self_eq a]
  have hR : (6000 : ℝ) < 40000 / (2 * π) := by
    rw [lt_div_iff₀ (by positivity)]
    nlinarith [Real.pi_lt_d2]
  have hstep : (0.02 : ℝ) * (40000 / (2 * π)) <
      Real.arccos 0.9995 * (40000 / (2 * π)) :=
    mul_lt_mul_of_pos_right arccos_09995_gt (by positivity)
  nlinarith [hR]

/-- C2, amended: for every geographic point `a`, `calculateDistance a a`
equals `arccos 0.9995 * (40000 / (2π))` — about 201 km, in particular more
than 100 km, never zero — because the dot product of the point with itself
is 1 and is clamped down to 0.9995 before `acos`. -/
theorem calculateDistance_self_spec (a : vec2) :
    calculateDistance a a = Real.arccos 0.9995 * (40000 / (2 * π)) ∧
    100 < calculateDistance a a :=
  ⟨calculateDistance_self_eq a, calculateDistance_self_gt a⟩

/-- C2, counterexample: the distance from the origin point to itself is not
zero, not even within a 1 km tolerance. -/
theorem calculateDistance_self_nonzero_cex :
    ¬ (|calculateDistance ⟨0, 0⟩ ⟨0, 0⟩| ≤ 1) := by
  intro h
  have h1 := (abs_le.mp h).2
  have h2 := calculateDistance_self_gt ⟨0, 0⟩
  linarith

theorem geoToCartesian_00 : geoToCartesian ⟨0, 0⟩ = ⟨1, 0, 0⟩ := by
  simp [geoToCartesian]

theorem geoToCartesian_0180 : geoToCartesian ⟨0, 180⟩ = ⟨-1, 0, 0⟩ := by
  simp only [geoToCartesian]
  rw [show (0 : ℝ) * π / 180 = 0 by ring, show (180 : ℝ) * π / 180 = π by ring]
  simp

theorem calculateDistance_00_0180_eq :
    calculateDistance ⟨0, 0⟩ ⟨0, 180⟩ = Real.arccos (-0.9995) * (40000 / (2 * π)) := by
  simp only [calculateDistance, geoToCartesian_00, geoToCartesian_0180]
  norm_num [dot3]

theorem calculateDistance_00_0180_bounds :
    19733 < calculateDistance ⟨0, 0⟩ ⟨0, 180⟩ ∧
    calculateDistance ⟨0, 0⟩ ⟨0, 180⟩ < 19874 := by
  have key : calculateDistance ⟨0, 0⟩ ⟨0, 180⟩ =
      20000 - 20000 * Real.arccos 0.9995 / π := by
    rw [calculateDistance_00_0180_eq, Real.arccos_neg]
    field_simp
    ring
  have hlow : 20000 * Real.arccos 0.9995 / π < 800 / 3 := by
    rw [div_lt_div_iff₀ Real.pi_pos (by norm_num)]
    nlinarith [arccos_09995_lt, Real.pi_gt_three]
  have hhigh : (126 : ℝ) < 20000 * Real.arccos 0.9995 / π := by
    rw [lt_div_iff₀ Real.pi_pos]
    nlinarith [arccos_09995_gt, Real.pi_lt_d2]
  constructor
  · rw [key]; linarith
  · rw [key]; linarith

/-- C3, amended: for `start = (0°, 0°)` and `end = (0°, 180°)` the distance
is `arccos (-0.9995) * (40000 / (2π))` ≈ 19798.7 km — strictly between
19733 and 19874 km, not ≈ 20000 km — because the dot product −1 is clamped
up to −0.9995 before `acos`. -/
theorem calculateDistance_00_0180_spec :
    calculateDistance ⟨0, 0⟩ ⟨0, 180⟩ = Real.arccos (-0.9995) * (40000 / (2 * π)) ∧
    19733 < calculateDistance ⟨0, 0⟩ ⟨0, 180⟩ ∧
    calculateDistance ⟨0, 0⟩ ⟨0, 180⟩ < 19874 :=
  ⟨calculateDistance_00_0180_eq, calculateDistance_00_0180_bounds.1,
    calculateDistance_00_0180_bounds.2⟩

/-- C3, counterexample: at `start = (0°, 0°)`, `end = (0°, 180°)` the
computed distance misses 20000 km by more than 100 km. -/
theorem calculateDistance_00_0180_cex :
    ¬ (|calculateDistance ⟨0, 0⟩ ⟨0, 180⟩ - 20000| ≤ 100) := by
  intro h
  have h1 := (abs_le.mp h).1
  have h2 := calculateDistance_00_0180_bounds.2
  linarith

theorem arccos_antitone {x y : ℝ} (hxy : x ≤ y) :
    Real.arccos y ≤ Real.arccos x := by
  simp only [Real.arccos]
  have := Real.monotone_arcsin hxy
  linarith

theorem arccos_mul_R_bounds {c : ℝ} (h1 : -0.9995 ≤ c) (h2 : c ≤ 0.9995) :
    Real.arccos 0.9995 * (40000 / (2 * π)) ≤ Real.arccos c * (40000 / (2 * π)) ∧
    Real.arccos c * (40000 / (2 * π)) ≤ Real.arccos (-0.9995) * (40000 / (2 * π)) ∧
    0 < Real.arccos c * (40000 / (2 * π)) ∧
    Real.arccos c * (40000 / (2 * π)) < 20000 := by
  have hR : (0 : ℝ) < 40000 / (2 * π) := by positivity
  have ha : Real.arccos c ≤ Real.arccos (-0.9995) := arccos_antitone h1
  have hb : Real.arccos 0.9995 ≤ Real.arccos c := arccos_antitone h2
  have hpos : 0 < Real.arccos 0.9995 := Real.arccos_pos.mpr (by norm_num)
  have hlt : Real.arccos (-0.9995) < π := by
    rw [Real.arccos_neg]; linarith
  refine ⟨mul_le_mul_of_nonneg_right hb hR.le,
          mul_le_mul_of_nonneg_right ha hR.le,
          mul_pos (lt_of_lt_of_le hpos hb) hR, ?_⟩
  have hstep : Real.arccos c * (40000 / (2 * π)) < π * (40000 / (2 * π)) :=
    mul_lt_mul_of_pos_right (lt_of_le_of_lt ha hlt) hR
  have hπR : π * (40000 / (2 * π)) = 20000 := by
    field_simp
    ring
  linarith

theorem clamp_ge (d : ℝ) :
    -0.9995 ≤ (if (if d > 0.9995 then (0.9995 : ℝ) else d) < -0.9995 then -0.9995
      else (if d > 0.9995 then (0.9995 : ℝ) else d)) := by
  split_ifs with h1 h2 <;> push_neg at * <;> linarith

theorem clamp_le (d : ℝ) :
    (if (if d > 0.9995 then (0.9995 : ℝ) else d) < -0.9995 then -0.9995
      else (if d > 0.9995 then (0.9995 : ℝ) else d)) ≤ 0.9995 := by
  split_ifs with h1 h2 <;> push_neg at * <;> linarith

/-- C4: for every pair of inputs, `calculateDistance` lands in
`[arccos 0.9995 * R, arccos (-0.9995) * R]` with `R = 40000 / (2π)`; in
particular it is strictly positive and strictly below 20000 km. -/
theorem calculateDistance_range (s e : vec2) :
    Real.arccos 0.9995 * (40000 / (2 * π)) ≤ calculateDistance s e ∧
    calculateDistance s e ≤ Real.arccos (-0.9995) * (40000 / (2 * π)) ∧
    0 < calculateDistance s e ∧ calculateDistance s e < 20000 := by
  simp only [calculateDistance]
  exact arccos_mul_R_bounds
    (clamp_ge (dot3 (geoToCartesian s) (geoToCartesian e)))
    (clamp_le (dot3 (geoToCartesian s) (geoToCartesian e)))

/-- C7: For every pair of geographic endpoints, the constructed `Path`
holds exactly `numPoints + 1 = 101` vertices. -/
theorem pathPoints_length (start stop : vec2) :
    (pathPoints start stop).length = 101 := by
  simp [pathPoints, numPoints]

theorem slerp_zero (a b : vec3) (ha : dot3 a a = 1) (hab : -1 < dot3 a b) :
    sphericalLinearInterpolation a b 0 = a := by
  simp only [sphericalLinearInterpolation]
  split_ifs with h
  · have hmix : mix3 a b 0 = a := by
      simp [mix3, add3, smul3]
    rw [hmix, normalize3, norm3, ha, Real.sqrt_one]
    simp [smul3]
  · push_neg at h
    have hsin : 0 < Real.sin (Real.arccos (dot3 a b)) := by
      rw [Real.sin_arccos]
      apply Real.sqrt_pos.mpr
      nlinarith
    rw [show (1 : ℝ) - 0 = 1 by norm_num, one_mul, zero_mul, Real.sin_zero, zero_div,
        div_self hsin.ne']
    simp [add3, smul3]

theorem slerp_one (a b : vec3) (hb : dot3 b b = 1) (hab : -1 < dot3 a b) :
    sphericalLinearInterpolation a b 1 = b := by
  simp only [sphericalLinearInterpolation]
  split_ifs with h
  · have hmix : mix3 a b 1 = b := by
      simp [mix3, add3, smul3]
    rw [hmix, normalize3, norm3, hb, Real.sqrt_one]
    simp [smul3]
  · push_neg at h
    have hsin : 0 < Real.sin (Real.arccos (dot3 a b)) := by
      rw [Real.sin_arccos]
      apply Real.sqrt_pos.mpr
      nlinarith
    rw [show (1 : ℝ) - 1 = 0 by norm_num, one_mul, zero_mul, Real.sin_zero, zero_div,
        div_self hsin.ne']
    simp [add3, smul3]

/-- C5: for unit vectors `a`, `b` that are not antipodal,
`sphericalLinearInterpolation` reproduces its endpoints at `t = 0` and
`t = 1` exactly. -/
theorem slerp_endpoints (a b : vec3) (ha : dot3 a a = 1) (hb : dot3 b b = 1)
    (hab : -1 < dot3 a b) :
    sphericalLinearInterpolation a b 0 = a ∧ sphericalLinearInterpolation a b 1 = b :=
  ⟨slerp_zero a b ha hab, slerp_one a b hb hab⟩

/-- C5 witness. -/
theorem slerp_endpoints_witness :
    dot3 ⟨1, 0, 0⟩ ⟨1, 0, 0⟩ = 1 ∧ dot3 ⟨0, 1, 0⟩ ⟨0, 1, 0⟩ = 1 ∧
    -1 < dot3 ⟨1, 0, 0⟩ ⟨0, 1, 0⟩ ∧
    (sphericalLinearInterpolation ⟨1, 0, 0⟩ ⟨0, 1, 0⟩ 0 = ⟨1, 0, 0⟩ ∧
     sphericalLinearInterpolation ⟨1, 0, 0⟩ ⟨0, 1, 0⟩ 1 = ⟨0, 1, 0⟩) :=
  ⟨by norm_num [dot3], by norm_num [dot3], by norm_num [dot3],
   slerp_endpoints ⟨1, 0, 0⟩ ⟨0, 1, 0⟩ (by norm_num [dot3]) (by norm_num [dot3])
     (by norm_num [dot3])⟩

theorem sin_add_sq_identity (A B : ℝ) :
    Real.sin A ^ 2 + 2 * Real.sin A * Real.sin B * Real.cos (A + B) + Real.sin B ^ 2
      = Real.sin (A + B) ^ 2 := by
  rw [Real.sin_add, Real.cos_add]
  linear_combination (- Real.sin A ^ 2) * Real.sin_sq_add_cos_sq B +
    (- Real.sin B ^ 2) * Real.sin_sq_add_cos_sq A

/-- C6, amended: the slerp of two non-antipodal unit vectors with dot
product below 0.999 has Euclidean norm exactly 1 (hence within 1e-3 of 1)
for every `t ∈ [0, 1]`. -/
theorem slerp_unit_norm (a b : vec3) (t : ℝ) (ha : dot3 a a = 1) (hb : dot3 b b = 1)
    (h1 : -1 < dot3 a b) (h2 : dot3 a b < 0.999) (ht0 : 0 ≤ t) (ht1 : t ≤ 1) :
    norm3 (sphericalLinearInterpolation a b t) = 1 := by
  have hno : ¬ (dot3 a b > 0.9995) := by push_neg; linarith
  simp only [sphericalLinearInterpolation, if_neg hno]
  set c := dot3 a b with hc
  have hcos : Real.cos (Real.arccos c) = c := Real.cos_arccos (by linarith) (by linarith)
  have hsin : 0 < Real.sin (Real.arccos c) := by
    rw [Real.sin_arccos]
    apply Real.sqrt_pos.mpr
    nlinarith
  set θ := Real.arccos c with hθ
  have hdot : dot3
      (add3 (smul3 (Real.sin ((1 - t) * θ) / Real.sin θ) a)
            (smul3 (Real.sin (t * θ) / Real.sin θ) b))
      (add3 (smul3 (Real.sin ((1 - t) * θ) / Real.sin θ) a)
            (smul3 (Real.sin (t * θ) / Real.sin θ) b)) = 1 := by
    have expand : ∀ p q : ℝ,
        dot3 (add3 (smul3 p a) (smul3 q b)) (add3 (smul3 p a) (smul3 q b))
          = p ^ 2 * dot3 a a + 2 * p * q * dot3 a b + q ^ 2 * dot3 b b := by
      intro p q
      simp only [dot3, add3, smul3]
      ring
    rw [expand, ha, hb, ← hc]
    have key := sin_add_sq_identity ((1 - t) * θ) (t * θ)
    rw [show (1 - t) * θ + t * θ = θ by ring] at key
    rw [hcos] at key
    field_simp
    linear_combination Real.sin θ ^ 4 * key
  rw [norm3, hdot, Real.sqrt_one]

/-- C6 witness. -/
theorem slerp_unit_norm_witness :
    dot3 ⟨1, 0, 0⟩ ⟨1, 0, 0⟩ = 1 ∧ dot3 ⟨0, 1, 0⟩ ⟨0, 1, 0⟩ = 1 ∧
    -1 < dot3 ⟨1, 0, 0⟩ ⟨0, 1, 0⟩ ∧ dot3 ⟨1, 0, 0⟩ ⟨0, 1, 0⟩ < 0.999 ∧
    (0 : ℝ) ≤ 1 / 2 ∧ (1 / 2 : ℝ) ≤ 1 ∧
    norm3 (sphericalLinearInterpolation ⟨1, 0, 0⟩ ⟨0, 1, 0⟩ (1 / 2)) = 1 :=
  ⟨by norm_num [dot3], by norm_num [dot3], by norm_num [dot3], by norm_num [dot3],
   by norm_num, by norm_num,
   slerp_unit_norm ⟨1, 0, 0⟩ ⟨0, 1, 0⟩ (1 / 2) (by norm_num [dot3]) (by norm_num [dot3])
     (by norm_num [dot3]) (by norm_num [dot3]) (by norm_num) (by norm_num)⟩

/-- C6, counterexample: the antipodal unit pair `(1,0,0)`, `(-1,0,0)` has
dot product −1 < 0.999, yet at `t = 1/2` the slerp result (the zero vector,
since `sin π = 0` makes both weights a division by zero) has norm 0, not 1
within 1e-3. -/
theorem slerp_unit_norm_cex :
    dot3 ⟨1, 0, 0⟩ ⟨1, 0, 0⟩ = 1 ∧ dot3 ⟨-1, 0, 0⟩ ⟨-1, 0, 0⟩ = 1 ∧
    dot3 ⟨1, 0, 0⟩ ⟨-1, 0, 0⟩ < 0.999 ∧ (0 : ℝ) ≤ 1 / 2 ∧ (1 / 2 : ℝ) ≤ 1 ∧
    ¬ (|norm3 (sphericalLinearInterpolation ⟨1, 0, 0⟩ ⟨-1, 0, 0⟩ (1 / 2)) - 1|
        ≤ 1 / 1000) := by
  have hd : dot3 ⟨1, 0, 0⟩ ⟨-1, 0, 0⟩ = -1 := by norm_num [dot3]
  refine ⟨by norm_num [dot3], by norm_num [dot3], by rw [hd]; norm_num,
          by norm_num, by norm_num, ?_⟩
  simp only [sphericalLinearInterpolation, hd]
  rw [if_neg (by norm_num), Real.arccos_neg_one, Real.sin_pi]
  norm_num [add3, smul3, norm3, dot3]

theorem atan2_mul_cos_sin {k φ : ℝ} (hk : 0 < k) (h1 : -π < φ) (h2 : φ ≤ π) :
    atan2 (k * Real.sin φ) (k * Real.cos φ) = φ := by
  by_cases hA : -(π / 2) < φ ∧ φ < π / 2
  · obtain ⟨hA1, hA2⟩ := hA
    have hcos : 0 < Real.cos φ := Real.cos_pos_of_mem_Ioo ⟨hA1, hA2⟩
    have hx : 0 < k * Real.cos φ := mul_pos hk hcos
    rw [atan2, if_pos hx, mul_div_mul_left _ _ hk.ne', ← Real.tan_eq_sin_div_cos,
        Real.arctan_tan hA1 hA2]
  · push_neg at hA
    rcases le_or_lt φ (-(π / 2)) with hle | hgt
    · rcases eq_or_lt_of_le hle with heq | hlt
      · rw [heq, Real.sin_neg, Real.sin_pi_div_two, Real.cos_neg, Real.cos_pi_div_two,
            mul_zero, mul_neg, mul_one, atan2]
        rw [if_neg (lt_irrefl 0), if_neg (lt_irrefl 0), if_neg (by linarith),
            if_pos (by linarith)]
      · have hcos : Real.cos φ < 0 := by
          rw [← Real.cos_neg]
          exact Real.cos_neg_of_pi_div_two_lt_of_lt (by linarith) (by nlinarith [pi_pos])
        have hsin : Real.sin φ < 0 :=
          Real.sin_neg_of_neg_of_neg_pi_lt (by nlinarith [pi_pos]) h1
        have hx : k * Real.cos φ < 0 := mul_neg_of_pos_of_neg hk hcos
        have hy : k * Real.sin φ < 0 := mul_neg_of_pos_of_neg hk hsin
        rw [atan2, if_neg (by linarith), if_pos hx, if_neg (by linarith)]
        rw [mul_div_mul_left _ _ hk.ne']
        have htan : Real.sin φ / Real.cos φ = Real.tan (φ + π) := by
          rw [Real.tan_add_pi, Real.tan_eq_sin_div_cos]
        rw [htan, Real.arctan_tan (by linarith) (by nlinarith [pi_pos])]
        ring
    · have hge := hA hgt
      rcases eq_or_lt_of_le hge with heq | hlt
      · rw [← heq, Real.sin_pi_div_two, Real.cos_pi_div_two, mul_zero, mul_one, atan2]
        rw [if_neg (lt_irrefl 0), if_neg (lt_irrefl 0), if_pos hk]
      · have hcos : Real.cos φ < 0 :=
          Real.cos_neg_of_pi_div_two_lt_of_lt hlt (by nlinarith [pi_pos])
        have hsin : 0 ≤ Real.sin φ :=
          Real.sin_nonneg_of_nonneg_of_le_pi (by nlinarith [pi_pos]) h2
        have hx : k * Real.cos φ < 0 := mul_neg_of_pos_of_neg hk hcos
        have hy : 0 ≤ k * Real.sin φ := mul_nonneg hk.le hsin
        rw [atan2, if_neg (by linarith), if_pos hx, if_pos hy]
        rw [mul_div_mul_left _ _ hk.ne']
        have htan : Real.sin φ / Real.cos φ = Real.tan (φ - π) := by
          rw [Real.tan_sub_pi, Real.tan_eq_sin_div_cos]
        rw [htan, Real.arctan_tan (by nlinarith [pi_pos]) (by linarith)]
        ring

/-- Inverting `geoToCartesian` through `cartesianToGeographic` recovers the
geographic point when the latitude is inside (−90°, 90°) and the longitude
inside (−180°, 180°]. -/
theorem cartesian_roundtrip (g : vec2) (hlat : |g.x| < 90)
    (hlon1 : -180 < g.y) (hlon2 : g.y ≤ 180) :
    cartesianToGeographic (geoToCartesian g) = g := by
  have hc : 0 < Real.cos (g.x * π / 180) := cos_latRad_pos hlat
  rw [abs_lt] at hlat
  rcases g with ⟨lat, lon⟩
  simp only at hc hlat hlon1 hlon2
  simp only [cartesianToGeographic, geoToCartesian]
  rw [vec2.mk.injEq]
  constructor
  · rw [Real.arcsin_sin (by nlinarith [pi_pos]) (by nlinarith [pi_pos])]
    field_simp
  · rw [atan2_mul_cos_sin hc (by nlinarith [pi_pos]) (by nlinarith [pi_pos])]
    field_simp

theorem pathPoints_headI (s e : vec2) :
    (pathPoints s e).headI = pathPoint (geoToCartesian s) (geoToCartesian e) 0 := by
  rw [pathPoints, List.range_succ_eq_map, List.map_cons]
  rfl

theorem pathPoints_getLast (s e : vec2) :
    (pathPoints s e).getLastD default
      = pathPoint (geoToCartesian s) (geoToCartesian e) numPoints := by
  rw [pathPoints, List.range_succ, List.map_append, List.map_cons, List.map_nil]
  exact List.getLastD_concat _ _ _

theorem pathPoint_zero (sc ec : vec3) :
    pathPoint sc ec 0 =
      geoToNormalizedMap (cartesianToGeographic (sphericalLinearInterpolation sc ec 0)) := by
  simp [pathPoint]

theorem pathPoint_last (sc ec : vec3) :
    pathPoint sc ec numPoints =
      geoToNormalizedMap (cartesianToGeographic (sphericalLinearInterpolation sc ec 1)) := by
  simp only [pathPoint]
  norm_num [numPoints]

/-- C8, amended: for endpoints with latitude magnitude at most 85°,
longitude in (−180°, 180°], and whose Cartesian images are not antipodal,
the first path vertex equals `geoToNormalizedMap start` and the last one
equals `geoToNormalizedMap end`, exactly (hence within 1e-3). -/
theorem path_endpoint_fidelity (s e : vec2)
    (hsl : |s.x| ≤ 85) (hel : |e.x| ≤ 85)
    (hsg : -180 < s.y) (hsd : s.y ≤ 180)
    (heg : -180 < e.y) (hed : e.y ≤ 180)
    (hab : -1 < dot3 (geoToCartesian s) (geoToCartesian e)) :
    (pathPoints s e).headI = geoToNormalizedMap s ∧
    (pathPoints s e).getLastD default = geoToNormalizedMap e := by
  constructor
  · rw [pathPoints_headI, pathPoint_zero,
        slerp_zero _ _ (dot3_geoToCartesian_self s) hab,
        cartesian_roundtrip s (lt_of_le_of_lt hsl (by norm_num)) hsg hsd]
  · rw [pathPoints_getLast, pathPoint_last,
        slerp_one _ _ (dot3_geoToCartesian_self e) hab,
        cartesian_roundtrip e (lt_of_le_of_lt hel (by norm_num)) heg hed]

theorem geoToCartesian_090 : geoToCartesian ⟨0, 90⟩ = ⟨0, 1, 0⟩ := by
  simp only [geoToCartesian]
  rw [show (0 : ℝ) * π / 180 = 0 by ring, show (90 : ℝ) * π / 180 = π / 2 by ring]
  simp

/-- C8 witness. -/
theorem path_endpoint_fidelity_witness :
    |((⟨0, 0⟩ : vec2)).x| ≤ 85 ∧ |((⟨0, 90⟩ : vec2)).x| ≤ 85 ∧
    -1 < dot3 (geoToCartesian ⟨0, 0⟩) (geoToCartesian ⟨0, 90⟩) ∧
    ((pathPoints ⟨0, 0⟩ ⟨0, 90⟩).headI = geoToNormalizedMap ⟨0, 0⟩ ∧
     (pathPoints ⟨0, 0⟩ ⟨0, 90⟩).getLastD default = geoToNormalizedMap ⟨0, 90⟩) := by
  have hd : -1 < dot3 (geoToCartesian ⟨0, 0⟩) (geoToCartesian ⟨0, 90⟩) := by
    rw [geoToCartesian_00, geoToCartesian_090]
    norm_num [dot3]
  exact ⟨by norm_num, by norm_num, hd,
    path_endpoint_fidelity ⟨0, 0⟩ ⟨0, 90⟩ (by norm_num) (by norm_num) (by norm_num)
      (by norm_num) (by norm_num) (by norm_num) hd⟩

theorem geoToCartesian_0m180 : geoToCartesian ⟨0, -180⟩ = ⟨-1, 0, 0⟩ := by
  simp only [geoToCartesian]
  rw [show (0 : ℝ) * π / 180 = 0 by ring, show (-180 : ℝ) * π / 180 = -π by ring]
  simp

theorem cartesianToGeographic_m100 : cartesianToGeographic ⟨-1, 0, 0⟩ = ⟨0, 180⟩ := by
  simp only [cartesianToGeographic, atan2]
  rw [if_neg (by norm_num), if_pos (by norm_num), if_pos (by norm_num)]
  rw [vec2.mk.injEq]
  constructor
  · simp
  · rw [show (0 : ℝ) / (-1) = 0 by norm_num, Real.arctan_zero, zero_add]
    field_simp

/-- C8, counterexample: with `start = (0°, −180°)` (a legal geographic
point) and `end = (0°, 90°)`, the first path vertex has normalized
`x = 1` while `geoToNormalizedMap start` has `x = −1`: the first component
differs by 2, far beyond the 1e-3 tolerance, because `atan2` returns +180°
for the meridian entered as −180°. -/
theorem path_endpoint_fidelity_cex :
    |((⟨0, -180⟩ : vec2)).x| ≤ 85 ∧ |((⟨0, 90⟩ : vec2)).x| ≤ 85 ∧
    ¬ (|(pathPoints ⟨0, -180⟩ ⟨0, 90⟩).headI.x - (geoToNormalizedMap ⟨0, -180⟩).x|
        ≤ 1 / 1000) := by
  refine ⟨by norm_num, by norm_num, ?_⟩
  have h1 : (pathPoints ⟨0, -180⟩ ⟨0, 90⟩).headI = geoToNormalizedMap ⟨0, 180⟩ := by
    rw [pathPoints_headI, pathPoint_zero, geoToCartesian_0m180, geoToCartesian_090,
        slerp_zero ⟨-1, 0, 0⟩ ⟨0, 1, 0⟩ (by norm_num [dot3]) (by norm_num [dot3]),
        cartesianToGeographic_m100]
  rw [h1, geoToNormalizedMap_eq, geoToNormalizedMap_eq]
  norm_num

/-- C9: `calculateDistance` is symmetric in its two arguments. -/
theorem calculateDistance_symm (a b : vec2) :
    calculateDistance a b = calculateDistance b a := by
  have h : dot3 (geoToCartesian a) (geoToCartesian b)
      = dot3 (geoToCartesian b) (geoToCartesian a) := by
    simp only [dot3]
    ring
  simp only [calculateDistance, h]
